import Mathlib

/-!
Verification of the item-registry microservice (`app/main.py`, `app/models.py`).

The service keeps an in-memory map `items_db` from integer IDs to items and a
mutable counter `next_item_id` starting at 1.  Three HTTP operations exist:
`GET /health`, `GET /items` and `POST /items`.  We embed the data model, the
Pydantic validation of `ItemCreate`, and the three handlers as pure Lean
functions over an explicit registry state, and prove the stated properties.
-/

namespace ItemService

/-- Embeds `app/models.py` `Item`: `id`, `name`, optional `description`. -/
structure Item where
  id : Nat
  name : String
  description : Option String
deriving DecidableEq, Repr

/-- Embeds `app/models.py` `ItemCreate` after successful validation:
`name` (1..100 chars) and optional `description` (at most 500 chars). -/
structure ItemCreate where
  name : String
  description : Option String
deriving DecidableEq, Repr

/-- Embeds `app/models.py` `HealthResponse`. -/
structure HealthResponse where
  status : String
deriving DecidableEq, Repr

/-- One entry of a Pydantic validation error: the field location path and the
machine-readable error kind (Pydantic's `loc` and `type`). -/
structure ValidationErrorEntry where
  loc : List String
  kind : String
deriving DecidableEq, Repr

/-- Embeds Pydantic's validation of the `ItemCreate` body in `app/models.py`:
`name : str = Field(..., min_length=1, max_length=100)` and
`description : str | None = Field(None, max_length=500)`.  A field given as
`none` is absent from the request body (for `description`, JSON null behaves
the same: the default is `None`).  Errors are collected per field, in field
declaration order, with Pydantic's error kinds. -/
def validate_ItemCreate (name : Option String) (description : Option String) :
    Except (List ValidationErrorEntry) ItemCreate :=
  let descErrs : List ValidationErrorEntry :=
    match description with
    | none => []
    | some s =>
        if s.length > 500 then [⟨["body", "description"], "string_too_long"⟩] else []
  match name with
  | none => .error (⟨["body", "name"], "missing"⟩ :: descErrs)
  | some n =>
      let nameErrs : List ValidationErrorEntry :=
        (if n.length < 1 then [⟨["body", "name"], "string_too_short"⟩] else []) ++
        (if n.length > 100 then [⟨["body", "name"], "string_too_long"⟩] else [])
      match nameErrs ++ descErrs with
      | [] => .ok ⟨n, description⟩
      | errs => .error errs

/-- The mutable module-level state of `app/main.py`: the insertion-ordered
dict `items_db` (a Python dict preserves insertion order) and the counter
`next_item_id` (held in a one-element list in the source). -/
structure Registry where
  items_db : List (Nat × Item)
  next_item_id : Nat
deriving DecidableEq, Repr

/-- The state at process start: `items_db = {}` and `next_item_id = [1]`. -/
def initialRegistry : Registry := ⟨[], 1⟩

/-- Python dict assignment `db[k] = v`: replace in place if the key exists,
otherwise append at the end (insertion order). -/
def dictSet : List (Nat × Item) → Nat → Item → List (Nat × Item)
  | [], k, v => [(k, v)]
  | p :: ps, k, v => if p.1 = k then (k, v) :: ps else p :: dictSet ps k v

/-- Python dict lookup `db.get(k)`. -/
def dictGet : List (Nat × Item) → Nat → Option Item
  | [], _ => none
  | p :: ps, k => if p.1 = k then some p.2 else dictGet ps k

/-- Embeds the body of `create_item` in `app/main.py` on validated input
(the `try` block taking the normal path): read `current_id` from the counter,
build the `Item`, store it under `current_id`, increment the counter, and
return the new item. -/
def create_item (st : Registry) (item_data : ItemCreate) : Item × Registry :=
  let current_id := st.next_item_id
  let new_item : Item := ⟨current_id, item_data.name, item_data.description⟩
  (new_item, ⟨dictSet st.items_db current_id new_item, current_id + 1⟩)

/-- Embeds `get_items` in `app/main.py`: `list(items_db.values())`, the stored
items in insertion order.  Read-only. -/
def get_items (st : Registry) : List Item :=
  st.items_db.map Prod.snd

/-- Embeds `health_check` in `app/main.py`: returns `HealthResponse(status="ok")`
and touches no registry state. -/
def health_check (st : Registry) : HealthResponse × Registry :=
  (⟨"ok"⟩, st)

/-- The body of an HTTP response, as far as the service produces them. -/
inductive ResponseBody where
  | itemBody (item : Item)
  | itemsBody (items : List Item)
  | healthBody (h : HealthResponse)
  | validationErrors (errs : List ValidationErrorEntry)
  | detail (msg : String)
deriving DecidableEq, Repr

/-- An HTTP response: status code and body. -/
structure HttpResponse where
  status_code : Nat
  body : ResponseBody
deriving DecidableEq, Repr

/-- The `POST /items` endpoint as the client sees it: FastAPI validates the
body against `ItemCreate` before the handler runs; a validation failure is a
422 with the field errors and the handler is never entered; on success the
handler `create_item` runs and the item is returned with status 201. -/
def post_items (st : Registry) (name description : Option String) :
    HttpResponse × Registry :=
  match validate_ItemCreate name description with
  | .error errs => (⟨422, .validationErrors errs⟩, st)
  | .ok item_data =>
      let r := create_item st item_data
      (⟨201, .itemBody r.1⟩, r.2)

/-- The `GET /items` endpoint: status 200 with the item list. -/
def get_items_endpoint (st : Registry) : HttpResponse × Registry :=
  (⟨200, .itemsBody (get_items st)⟩, st)

/-- The `GET /health` endpoint: status 200 with the health body. -/
def health_endpoint (st : Registry) : HttpResponse × Registry :=
  (⟨200, .healthBody (health_check st).1⟩, (health_check st).2)

/-- The response a client receives when the `try` block of `create_item`
raises: the `except` branch raises `HTTPException(status_code=500,
detail="Failed to create item")`, which FastAPI's HTTP-exception handler
renders as a JSON body with that `detail` string and the given status.  The
argument is the raised exception's message; it is logged, not returned. -/
def create_item_failure_response (exc_message : String) : HttpResponse :=
  ⟨500, .detail "Failed to create item"⟩

/-- Embeds `global_exception_handler` in `app/main.py`: any unhandled
exception becomes a 500 whose body detail is "An internal error occurred".
The argument is the exception's message; it is logged, not returned. -/
def global_exception_handler (exc_message : String) : HttpResponse :=
  ⟨500, .detail "An internal error occurred"⟩

/-- Runs a sequence of successful `create_item` calls, returning the list of
returned items in call order plus the final state. -/
def run_creates : Registry → List ItemCreate → List Item × Registry
  | st, [] => ([], st)
  | st, d :: ds =>
      let r := create_item st d
      let rest := run_creates r.2 ds
      (r.1 :: rest.1, rest.2)

/-- Setting a key that is absent from the dict appends it at the end. -/
theorem dictSet_fresh (db : List (Nat × Item)) (k : Nat) (v : Item)
    (h : ∀ p ∈ db, p.1 ≠ k) : dictSet db k v = db ++ [(k, v)] := by
  induction db with
  | nil => rfl
  | cons p ps ih =>
      have hp : p.1 ≠ k := h p (by simp)
      simp only [dictSet, if_neg hp, List.cons_append, List.cons.injEq, true_and]
      exact ih fun q hq => h q (by simp [hq])

/-- After setting a key, looking it up yields the stored value. -/
theorem dictGet_dictSet (db : List (Nat × Item)) (k : Nat) (v : Item) :
    dictGet (dictSet db k v) k = some v := by
  induction db with
  | nil => simp [dictSet, dictGet]
  | cons p ps ih =>
      by_cases hp : p.1 = k
      · simp [dictSet, dictGet, hp]
      · simp [dictSet, dictGet, hp, ih]

/-- The IDs returned by a run of creates starting at state `st` are the
consecutive integers starting at `st.next_item_id`. -/
theorem run_creates_ids (ds : List ItemCreate) (st : Registry) :
    (run_creates st ds).1.map Item.id = List.range' st.next_item_id ds.length := by
  induction ds generalizing st with
  | nil => rfl
  | cons d ds ih =>
      simp only [run_creates, create_item, List.length_cons, List.range'_succ,
        List.map_cons, List.cons.injEq]
      exact ⟨trivial, ih _⟩

/-- All stored keys lie strictly below the counter. -/
def KeysBelow (st : Registry) : Prop :=
  ∀ p ∈ st.items_db, p.1 < st.next_item_id

/-- A create from a state whose keys are below the counter appends its new
entry at the end of the dict, and the resulting state again has all keys
below the counter. -/
theorem create_item_step (st : Registry) (d : ItemCreate) (h : KeysBelow st) :
    (create_item st d).2.items_db
      = st.items_db ++ [(st.next_item_id, (create_item st d).1)] ∧
    KeysBelow (create_item st d).2 := by
  have hfresh : ∀ p ∈ st.items_db, p.1 ≠ st.next_item_id :=
    fun p hp => Nat.ne_of_lt (h p hp)
  constructor
  · exact dictSet_fresh st.items_db st.next_item_id _ hfresh
  · intro p hp
    simp only [create_item] at hp ⊢
    rw [dictSet_fresh st.items_db st.next_item_id _ hfresh] at hp
    rcases List.mem_append.mp hp with hp | hp
    · exact Nat.lt_succ_of_lt (h p hp)
    · simp only [List.mem_singleton] at hp
      subst hp
      exact Nat.lt_succ_self _

/-- The items listed after a run of creates are the items listed before,
followed by the items the run returned, in call order. -/
theorem run_creates_get_items (ds : List ItemCreate) (st : Registry)
    (h : KeysBelow st) :
    get_items (run_creates st ds).2 = get_items st ++ (run_creates st ds).1 := by
  induction ds generalizing st with
  | nil => simp [run_creates]
  | cons d ds ih =>
      obtain ⟨happ, hkb⟩ := create_item_step st d h
      show get_items (run_creates (create_item st d).2 ds).2
        = get_items st ++ ((create_item st d).1 :: (run_creates (create_item st d).2 ds).1)
      rw [ih _ hkb]
      have : get_items (create_item st d).2 = get_items st ++ [(create_item st d).1] := by
        simp [get_items, happ]
      rw [this, List.append_assoc]
      rfl

end ItemService

namespace ItemService

/-- A `POST /items` carrying only a name is rejected with 422 exactly when
the name length is outside 1..100. -/
theorem post_items_name_status (st : Registry) (n : String) :
    (post_items st (some n) none).1.status_code = 422
      ↔ (n.length < 1 ∨ 100 < n.length) := by
  by_cases h1 : n.length < 1 <;> by_cases h2 : n.length > 100 <;>
    simp [post_items, validate_ItemCreate, h1, h2, create_item]

/-- C1: starting from the empty registry, N successful `create_item` calls
return exactly the IDs 1, 2, ..., N in call order, with no gaps and no
repeats. -/
theorem create_ids_are_one_to_N (ds : List ItemCreate) :
    ((run_creates initialRegistry ds).1.map Item.id) = List.range' 1 ds.length :=
  run_creates_ids ds initialRegistry

/-- C2: after N successful creates from the empty registry, `get_items`
returns exactly the N items returned by the create calls, in call order; on
the empty registry it returns the empty list. -/
theorem list_items_after_creates (ds : List ItemCreate) :
    get_items (run_creates initialRegistry ds).2 = (run_creates initialRegistry ds).1 ∧
    (run_creates initialRegistry ds).1.length = ds.length ∧
    get_items initialRegistry = [] := by
  refine ⟨?_, ?_, rfl⟩
  · have h := run_creates_get_items ds initialRegistry
      (by intro p hp; simp [initialRegistry] at hp)
    simpa [initialRegistry, get_items] using h
  · have h := congrArg List.length (run_creates_ids ds initialRegistry)
    simpa using h

/-- C3: on any registry state and any valid input (name of 1 to 100
characters, description absent or at most 500 characters), `create_item`
returns the item built from the current counter value and the input fields,
stores it under that ID, and advances the counter by exactly one. -/
theorem create_item_correct (st : Registry) (item_data : ItemCreate)
    (h1 : 1 ≤ item_data.name.length) (h2 : item_data.name.length ≤ 100)
    (h3 : ∀ s, item_data.description = some s → s.length ≤ 500) :
    (create_item st item_data).1
      = ⟨st.next_item_id, item_data.name, item_data.description⟩ ∧
    dictGet (create_item st item_data).2.items_db st.next_item_id
      = some (create_item st item_data).1 ∧
    (create_item st item_data).2.next_item_id = st.next_item_id + 1 :=
  ⟨rfl, dictGet_dictSet _ _ _, rfl⟩

/-- C3 witness: from the empty registry, creating name "Phone" with no
description yields the item with ID 1, name "Phone" and null description,
stored under ID 1, and the counter becomes 2. -/
theorem create_item_correct_witness :
    (create_item initialRegistry ⟨"Phone", none⟩).1 = (⟨1, "Phone", none⟩ : Item) ∧
    dictGet (create_item initialRegistry ⟨"Phone", none⟩).2.items_db 1
      = some (create_item initialRegistry ⟨"Phone", none⟩).1 ∧
    (create_item initialRegistry ⟨"Phone", none⟩).2.next_item_id = 2 :=
  create_item_correct initialRegistry ⟨"Phone", none⟩ (by decide) (by decide)
    (by intro s hs; cases hs)

/-- C4 counterexample: an unexpected failure inside `create_item` — say one
whose logged message is "storage write failure" — yields a 500 whose body
detail is "Failed to create item", not the catch-all handler's
"An internal error occurred"; the claim that the creation-failure body is
exactly the catch-all body is false. -/
theorem create_failure_body_differs :
    ¬ (create_item_failure_response "storage write failure"
        = global_exception_handler "storage write failure") := by
  decide

/-- C4 amended: an unexpected failure during item creation yields a 500 whose
body detail is the fixed string "Failed to create item", and the catch-all
handler yields a 500 whose body detail is the fixed string "An internal error
occurred"; neither response depends on the exception message, so no internal
detail reaches the client. -/
theorem error_responses_are_generic (e e' : String) :
    create_item_failure_response e = ⟨500, .detail "Failed to create item"⟩ ∧
    global_exception_handler e = ⟨500, .detail "An internal error occurred"⟩ ∧
    create_item_failure_response e = create_item_failure_response e' ∧
    global_exception_handler e = global_exception_handler e' :=
  ⟨rfl, rfl, rfl, rfl⟩

set_option maxRecDepth 20000 in
/-- C5: a posted name is rejected with 422 exactly when its length is outside
1..100; in particular the empty name and a 101-character name fail, a
100-character name succeeds with 201, and an omitted name fails citing the
`name` field as missing. -/
theorem name_validation_boundaries :
    (∀ (st : Registry) (n : String),
        (post_items st (some n) none).1.status_code = 422
          ↔ (n.length < 1 ∨ 100 < n.length)) ∧
    (post_items initialRegistry (some "") none).1.status_code = 422 ∧
    (post_items initialRegistry
        (some (String.mk (List.replicate 101 'a'))) none).1.status_code = 422 ∧
    (post_items initialRegistry
        (some (String.mk (List.replicate 100 'a'))) none).1.status_code = 201 ∧
    (post_items initialRegistry none none).1
      = ⟨422, .validationErrors [⟨["body", "name"], "missing"⟩]⟩ := by
  refine ⟨post_items_name_status, ?_, ?_, ?_, rfl⟩ <;> decide

set_option maxRecDepth 20000 in
/-- C6: a 501-character description is rejected with 422, a 500-character
description is accepted with 201, and when the description is absent the
created item's description is null. -/
theorem description_validation_boundaries :
    (post_items initialRegistry (some "Valid Name")
        (some (String.mk (List.replicate 501 'a')))).1.status_code = 422 ∧
    (post_items initialRegistry (some "Valid Name")
        (some (String.mk (List.replicate 500 'a')))).1.status_code = 201 ∧
    (post_items initialRegistry (some "Phone") none).1.body
      = .itemBody ⟨1, "Phone", none⟩ := by
  refine ⟨?_, ?_, rfl⟩ <;> decide

/-- C7: a request rejected with a 422 validation error leaves the registry
state unchanged: no entry is added and the counter does not advance. -/
theorem invalid_request_leaves_state (st : Registry) (name description : Option String)
    (h : (post_items st name description).1.status_code = 422) :
    (post_items st name description).2 = st := by
  revert h
  unfold post_items
  cases hv : validate_ItemCreate name description <;> simp

/-- C7 witness: posting a body with no name against the empty registry leaves
it unchanged. -/
theorem invalid_request_leaves_state_witness :
    (post_items initialRegistry none none).2 = initialRegistry :=
  invalid_request_leaves_state initialRegistry none none (by rfl)

/-- C8: on every registry state the health endpoint returns status 200 with
body status "ok" and leaves the state untouched; it is total, so it has no
failure modes. -/
theorem health_always_ok (st : Registry) :
    health_endpoint st = (⟨200, .healthBody ⟨"ok"⟩⟩, st) :=
  rfl

end ItemService

namespace ItemService

/-- The registry states reachable from process start through the three HTTP
operations (health check, list, and post with an arbitrary body). -/
inductive Reachable : Registry → Prop where
  | init : Reachable initialRegistry
  | health (st : Registry) : Reachable st → Reachable (health_endpoint st).2
  | list (st : Registry) : Reachable st → Reachable (get_items_endpoint st).2
  | post (st : Registry) (name description : Option String) :
      Reachable st → Reachable (post_items st name description).2

/-- The registry invariant: the keys of the item map are exactly
1, ..., next_item_id - 1 in order, each stored item's `id` field equals its
key, and the counter equals the number of stored items plus one. -/
def RegistryInv (st : Registry) : Prop :=
  st.items_db.map Prod.fst = List.range' 1 (st.next_item_id - 1) ∧
  (∀ p ∈ st.items_db, p.2.id = p.1) ∧
  st.next_item_id = st.items_db.length + 1

/-- C9: every state reachable from the initial state (empty map, counter 1)
satisfies the registry invariant. -/
theorem reachable_registry_inv (st : Registry) (h : Reachable st) :
    RegistryInv st := by
  induction h with
  | init =>
      refine ⟨rfl, ?_, rfl⟩
      intro p hp
      simp [initialRegistry] at hp
  | health st' _ ih => exact ih
  | list st' _ ih => exact ih
  | post st' name description _ ih =>
      obtain ⟨hkeys, hid, hlen⟩ := ih
      cases hv : validate_ItemCreate name description with
      | error errs =>
          have hsame : (post_items st' name description).2 = st' := by
            simp [post_items, hv]
          rw [hsame]
          exact ⟨hkeys, hid, hlen⟩
      | ok item_data =>
          have hkb : KeysBelow st' := by
            intro p hp
            have hmem : p.1 ∈ st'.items_db.map Prod.fst := List.mem_map_of_mem _ hp
            rw [hkeys] at hmem
            have := (List.mem_range'_1.mp hmem).2
            omega
          obtain ⟨happ, _⟩ := create_item_step st' item_data hkb
          have hst2 : (post_items st' name description).2
              = (create_item st' item_data).2 := by
            simp [post_items, hv]
          have hstate : (create_item st' item_data).2
              = ⟨st'.items_db ++ [(st'.next_item_id, (create_item st' item_data).1)],
                 st'.next_item_id + 1⟩ := by
            have hpair : (create_item st' item_data).2
                = ⟨(create_item st' item_data).2.items_db, st'.next_item_id + 1⟩ := rfl
            rw [hpair, happ]
          rw [hst2, hstate]
          refine ⟨?_, ?_, ?_⟩
          · show (st'.items_db
                ++ [(st'.next_item_id, (create_item st' item_data).1)]).map Prod.fst
              = List.range' 1 (st'.next_item_id + 1 - 1)
            rw [List.map_append, hkeys, Nat.add_sub_cancel]
            have hsplit : List.range' 1 st'.next_item_id
                = List.range' 1 (st'.next_item_id - 1) ++ [st'.next_item_id] := by
              conv_lhs => rw [show st'.next_item_id = (st'.next_item_id - 1) + 1 by omega]
              rw [List.range'_concat]
              have : 1 + 1 * (st'.next_item_id - 1) = st'.next_item_id := by omega
              rw [this]
            rw [hsplit]
            rfl
          · intro p hp
            rcases List.mem_append.mp hp with hmem | hmem
            · exact hid p hmem
            · simp only [List.mem_singleton] at hmem
              subst hmem
              rfl
          · simp only [List.length_append, List.length_singleton]
            omega

/-- C9 witness: the state after one successful create from the initial state
satisfies the invariant. -/
theorem reachable_registry_inv_witness :
    RegistryInv (post_items initialRegistry (some "Phone") none).2 :=
  reachable_registry_inv _
    (Reachable.post initialRegistry (some "Phone") none Reachable.init)

/-- C10: any name whose length is between 1 and 100 is accepted whatever its
characters are — a whitespace-only name included — and the created item
carries the posted name and description verbatim. -/
theorem names_accepted_verbatim (st : Registry) (n : String) (d : Option String)
    (h1 : 1 ≤ n.length) (h2 : n.length ≤ 100)
    (h3 : ∀ s, d = some s → s.length ≤ 500) :
    (post_items st (some n) d).1.status_code = 201 ∧
    (post_items st (some n) d).1.body = .itemBody ⟨st.next_item_id, n, d⟩ := by
  have hlo : ¬ (n.length < 1) := by omega
  have hhi : ¬ (n.length > 100) := by omega
  cases d with
  | none =>
      constructor <;> simp [post_items, validate_ItemCreate, hlo, hhi, create_item]
  | some s =>
      have hs : ¬ (s.length > 500) := by
        have := h3 s rfl
        omega
      constructor <;> simp [post_items, validate_ItemCreate, hlo, hhi, hs, create_item]

/-- C10 witness: a single-space name with an untrimmed description is
accepted and stored verbatim. -/
theorem names_accepted_verbatim_witness :
    (post_items initialRegistry (some " ") (some " desc ")).1.status_code = 201 ∧
    (post_items initialRegistry (some " ") (some " desc ")).1.body
      = .itemBody ⟨1, " ", some " desc "⟩ :=
  names_accepted_verbatim initialRegistry " " (some " desc ") (by decide) (by decide)
    (by intro s hs; cases hs; decide)

end ItemService
